import Mathlib

/-!
Shallow embedding of the collaborative-canvas server and client core
(`src/server/drawing-state.ts`, `src/server/server.ts`,
`src/client/main.ts`, room management).

JavaScript numbers are modelled as rationals (`ℚ`); JS `Map`s are
insertion-ordered association lists; optional / possibly-absent fields are
`Option`s.  JS truthiness of a string is "non-empty"; truthiness of a
number is "non-zero" (NaN, which is also falsy, has no rational
counterpart and is outside the model).  Server-generated values
(`uuidv4()`, `Date.now()`) enter the handlers as explicit parameters.
-/

namespace CollabCanvas

/-- The `type` field of a `DrawingOperation`
(`drawing-state.ts`, line 6). -/
inductive OpType where
  | draw
  | erase
  | clear
  | rectangle
  | circle
  | text
  | image
  deriving DecidableEq

/-- `Point` from `drawing-state.ts` (lines 21-25):
`{x: number, y: number, pressure?: number}`. -/
structure Point where
  x : ℚ
  y : ℚ
  pressure : Option ℚ := none
  deriving DecidableEq

/-- `DrawingOperation` from `drawing-state.ts` (lines 3-19); every
type-dependent payload field is optional, exactly as in the interface. -/
structure DrawingOperation where
  id : String
  userId : String
  type : OpType
  timestamp : ℚ
  path : Option (List Point) := none
  color : Option String := none
  lineWidth : Option ℚ := none
  eraserRadius : Option ℚ := none
  startPoint : Option Point := none
  endPoint : Option Point := none
  text : Option String := none
  fontSize : Option ℚ := none
  imageData : Option String := none
  imageWidth : Option ℚ := none
  imageHeight : Option ℚ := none
  deriving DecidableEq

/-- `MAX_OPERATIONS` from `drawing-state.ts` line 42. -/
def MAX_OPERATIONS : Nat := 500

/-- `DrawingStateManager.addOperation` (`drawing-state.ts` lines 61-69):
push to the tail, then if the length exceeds `MAX_OPERATIONS` drop the
element at index 0 (`Array.prototype.shift`). -/
def addOperation (ops : List DrawingOperation) (op : DrawingOperation) :
    List DrawingOperation :=
  let pushed := ops ++ [op]
  if MAX_OPERATIONS < pushed.length then pushed.tail else pushed

/-- Remove the LAST element of the list satisfying `p` and return it with
the remaining list, or `none` when no element satisfies `p`.  This is the
tail-backward scan plus `splice(index, 1)` of
`DrawingStateManager.undoOperation` (`drawing-state.ts` lines 91-104)
expressed by structural recursion. -/
def removeLast (p : α → Bool) : List α → Option (α × List α)
  | [] => none
  | x :: xs =>
    match removeLast p xs with
    | some (y, rest) => some (y, x :: rest)
    | none => if p x then some (x, xs) else none

/-- `DrawingStateManager.undoOperation` (`drawing-state.ts` lines 82-106).
The optional `userId` models the JS optional parameter; the JS guard
`if (userId)` is false for `undefined` and for the empty string, in which
case the scan predicate accepts every operation (global undo of the last
entry).  Returns the undone operation (or `none`) together with the room
log after the splice. -/
def undoOperation (ops : List DrawingOperation) (userId? : Option String) :
    Option DrawingOperation × List DrawingOperation :=
  if ops = [] then (none, ops)
  else
    let pred : DrawingOperation → Bool :=
      match userId? with
      | some u => if u = "" then fun _ => true else fun op => op.userId == u
      | none => fun _ => true
    match removeLast pred ops with
    | some (op, rest) => (some op, rest)
    | none => (none, ops)

/-- The coordinate clamp applied by the `draw-start` (`server.ts` lines
146-149) and `draw-progress` (lines 193-196) handlers:
`{x: Math.max(0, p.x), y: Math.max(0, p.y)}`.  The literal carries no
`pressure` field. -/
def clampPoint (p : Point) : Point :=
  { x := max 0 p.x, y := max 0 p.y }

/-- Payload of a `draw-start` message (`server.ts` line 136); a `none`
field models an absent or non-number/non-string field. -/
structure DrawStartData where
  point : Option Point := none
  color : Option String := none
  lineWidth : Option ℚ := none
  operationId : Option String := none
  deriving DecidableEq

/-- Observable outcome of the `draw-start` handler: the room log after
the handler, the operation relayed via `socket.to(room)` (all members
except the sender), and whether an `error` event was emitted to the
sender. -/
structure DrawStartResult where
  ops : List DrawingOperation
  relayOthers : Option DrawingOperation := none
  errorToSender : Bool := false
  deriving DecidableEq

/-- The `draw-start` handler (`server.ts` lines 136-172): validate the
point, default the color, clamp `lineWidth` to `[1,100]` after the JS
`data.lineWidth || 5` falsy-default, clamp the point to non-negative
coordinates, default the operation id, then store (with eviction) and
relay the stamped operation. -/
def drawStartHandler (userId : String) (now : ℚ) (genId : String)
    (ops : List DrawingOperation) (data : Option DrawStartData) :
    DrawStartResult :=
  match data with
  | none => { ops := ops, errorToSender := true }
  | some d =>
    match d.point with
    | none => { ops := ops, errorToSender := true }
    | some rawPoint =>
      let color := match d.color with
        | some c => c
        | none => "#000000"
      let defaulted : ℚ := match d.lineWidth with
        | some w => if w = 0 then 5 else w
        | none => 5
      let lineWidth := max 1 (min 100 defaulted)
      let point := clampPoint rawPoint
      let operationId := match d.operationId with
        | some s => if s = "" then genId else s
        | none => genId
      let operation : DrawingOperation :=
        { id := operationId, userId := userId, type := OpType.draw,
          timestamp := now, path := some [point], color := some color,
          lineWidth := some lineWidth }
      { ops := addOperation ops operation, relayOthers := some operation }

/-- Payload of a `draw-progress` message (`server.ts` line 175). -/
structure DrawProgressData where
  operationId : Option String := none
  point : Option Point := none
  deriving DecidableEq

/-- Observable outcome of the `draw-progress` handler: the room log and
the `{operationId, point}` delta relayed to the other room members.  The
handler never emits an `error` event; the field records that fact. -/
structure DrawProgressResult where
  ops : List DrawingOperation
  relayOthers : Option (String × Point) := none
  errorToSender : Bool := false
  deriving DecidableEq

/-- In-place update of the first list element satisfying `p`, mirroring a
mutation of the object returned by `Array.prototype.find`. -/
def updateFirst (p : α → Bool) (f : α → α) : List α → List α
  | [] => []
  | x :: xs => if p x then f x :: xs else x :: updateFirst p f xs

/-- The `draw-progress` handler (`server.ts` lines 175-212): silently
ignore invalid payloads; find the operation by id; append the clamped
point and relay it only when the operation exists, is owned by the
sender, has a `path`, and the path is still under 10,000 points.  Every
other branch leaves the log untouched and relays nothing. -/
def drawProgressHandler (userId : String) (ops : List DrawingOperation)
    (data : Option DrawProgressData) : DrawProgressResult :=
  match data with
  | none => { ops := ops }
  | some d =>
    match d.operationId, d.point with
    | some opId, some rawPoint =>
      if opId = "" then { ops := ops }
      else
        match ops.find? (fun op => op.id == opId) with
        | some operation =>
          if operation.userId = userId then
            match operation.path with
            | some path =>
              if path.length < 10000 then
                let newPoint := clampPoint rawPoint
                { ops := updateFirst (fun op => op.id == opId)
                    (fun op => { op with path := some (path ++ [newPoint]) })
                    ops,
                  relayOthers := some (opId, newPoint) }
              else { ops := ops }
            | none => { ops := ops }
          else { ops := ops }
        | none => { ops := ops }
    | _, _ => { ops := ops }

/-- Payload of an `erase` message (`server.ts` line 223). -/
structure EraseData where
  point : Point
  radius : ℚ
  deriving DecidableEq

/-- Observable outcome of the `erase` handler. -/
structure EraseResult where
  ops : List DrawingOperation
  relayOthers : Option DrawingOperation := none
  deriving DecidableEq

/-- The `erase` handler (`server.ts` lines 223-235): builds the record
with `path: [data.point]` — the point is stored and relayed exactly as
received, with no clamping and no validation — then stores and relays. -/
def eraseHandler (userId : String) (now : ℚ) (genId : String)
    (ops : List DrawingOperation) (data : EraseData) : EraseResult :=
  let operation : DrawingOperation :=
    { id := genId, userId := userId, type := OpType.erase,
      timestamp := now, path := some [data.point],
      eraserRadius := some data.radius }
  { ops := addOperation ops operation, relayOthers := some operation }

/-- Observable outcome of the `clear-canvas` handler; `broadcastRoom` is
the payload of `io.to(room).emit`, which reaches every member of the room
including the sender. -/
structure ClearCanvasResult where
  ops : List DrawingOperation
  broadcastRoom : Option DrawingOperation := none
  deriving DecidableEq

/-- The `clear-canvas` handler (`server.ts` lines 299-311): build the
synthetic clear marker, push it through `addOperation` (line 307), then
replace the whole log with `[operation]` (line 308), and broadcast the
marker to the entire room including the sender. -/
def clearCanvasHandler (userId : String) (now : ℚ) (genId : String)
    (ops : List DrawingOperation) : ClearCanvasResult :=
  let operation : DrawingOperation :=
    { id := genId, userId := userId, type := OpType.clear, timestamp := now }
  let _pushed := addOperation ops operation
  { ops := [operation], broadcastRoom := some operation }

/-- Observable outcome of the `undo` handler; `broadcastRoom` carries the
`{operationId, userId}` payload of `io.to(room).emit`, reaching the whole
room including the sender. -/
structure UndoHandlerResult where
  ops : List DrawingOperation
  broadcastRoom : Option (String × String) := none
  deriving DecidableEq

/-- The `undo` handler (`server.ts` lines 324-340): call
`undoOperation(room, userId)` with the sender's id and broadcast only
when something was actually removed; otherwise do nothing at all. -/
def undoHandler (userId : String) (ops : List DrawingOperation) :
    UndoHandlerResult :=
  match undoOperation ops (some userId) with
  | (some op, rest) => { ops := rest, broadcastRoom := some (op.id, op.userId) }
  | (none, rest) => { ops := rest }

/-- `UserInfo` from `drawing-state.ts` (lines 32-38). -/
structure UserInfo where
  id : String
  name : String
  color : String
  cursorPosition : Option Point := none
  lastSeen : ℚ
  deriving DecidableEq

/-- `RoomState` from `drawing-state.ts` (lines 27-30); the `users` `Map`
is an insertion-ordered association list. -/
structure RoomState where
  operations : List DrawingOperation
  users : List (String × UserInfo)
  deriving DecidableEq

/-- `RoomConfig` from `rooms.ts` (lines 7-12). -/
structure RoomConfig where
  id : String
  name : String
  createdAt : ℚ
  deriving DecidableEq

/-- `Map.prototype.get` on an insertion-ordered association list. -/
def lookupAssoc (l : List (String × α)) (k : String) : Option α :=
  match l with
  | [] => none
  | (k', v) :: rest => if k' = k then some v else lookupAssoc rest k

/-- `Map.prototype.set` on an insertion-ordered association list: update
an existing key in place, or append a new key at the end. -/
def setAssoc (l : List (String × α)) (k : String) (v : α) :
    List (String × α) :=
  match l with
  | [] => [(k, v)]
  | (k', v') :: rest =>
    if k' = k then (k, v) :: rest else (k', v') :: setAssoc rest k v

/-- `DEFAULT_COLORS` from `rooms.ts` (lines 17-28). -/
def DEFAULT_COLORS : List String :=
  ["#FF6B6B", "#4ECDC4", "#45B7D1", "#FFA07A", "#98D8C8",
   "#F7DC6F", "#BB8FCE", "#85C1E2", "#F8B739", "#52BE80"]

/-- `RoomManager.createRoom` (`rooms.ts` lines 34-41), restricted to the
map of rooms it mutates. -/
def rmCreateRoom (rooms : List (String × RoomConfig)) (roomId : String)
    (now : ℚ) : List (String × RoomConfig) :=
  setAssoc rooms roomId
    { id := roomId, name := "Room " ++ roomId, createdAt := now }

/-- `RoomManager.assignUserColor` (`rooms.ts` lines 62-71): sticky color
per user, round-robin index into the fixed palette otherwise.  Returns
the color together with the updated `userColors` map and `colorIndex`. -/
def assignUserColor (userColors : List (String × String)) (colorIndex : Nat)
    (userId : String) : String × List (String × String) × Nat :=
  match lookupAssoc userColors userId with
  | some c => (c, userColors, colorIndex)
  | none =>
    let color := DEFAULT_COLORS.getD (colorIndex % DEFAULT_COLORS.length) ""
    (color, setAssoc userColors userId color, colorIndex + 1)

/-- `DrawingStateManager.getRoomState` (`drawing-state.ts` lines 48-56):
create-if-absent, then return the room state together with the updated
room map. -/
def dsGetRoomState (rooms : List (String × RoomState)) (roomId : String) :
    RoomState × List (String × RoomState) :=
  match lookupAssoc rooms roomId with
  | some r => (r, rooms)
  | none =>
    let fresh : RoomState := { operations := [], users := [] }
    (fresh, rooms ++ [(roomId, fresh)])

/-- `DrawingStateManager.addUser` (`drawing-state.ts` lines 111-119). -/
def dsAddUser (rooms : List (String × RoomState)) (roomId userId userName
    color : String) (now : ℚ) : List (String × RoomState) :=
  let (r, rooms') := dsGetRoomState rooms roomId
  let entry : UserInfo :=
    { id := userId, name := userName, color := color, lastSeen := now }
  setAssoc rooms' roomId { r with users := setAssoc r.users userId entry }

/-- `DrawingStateManager.getStateSnapshot` (`drawing-state.ts` lines
169-178): a copy of the log plus the list of users, after the implicit
create-if-absent of `getRoomState`. -/
def dsGetStateSnapshot (rooms : List (String × RoomState))
    (roomId : String) :
    (List DrawingOperation × List UserInfo) × List (String × RoomState) :=
  let (r, rooms') := dsGetRoomState rooms roomId
  ((r.operations, r.users.map Prod.snd), rooms')

/-- Characters kept by the room-id sanitizer regex
`/[^a-zA-Z0-9-_]/g` (`server.ts` line 99). -/
def isRoomChar (c : Char) : Bool :=
  ('a' ≤ c && c ≤ 'z') || ('A' ≤ c && c ≤ 'Z') ||
    ('0' ≤ c && c ≤ '9') || c == '-' || c == '_'

/-- `roomId.replace(/[^a-zA-Z0-9-_]/g, '')` (`server.ts` line 99). -/
def sanitizeRoomId (s : String) : String :=
  ⟨s.data.filter isRoomChar⟩

/-- The per-connection and registry state read or written by the
`join-room` handler: the captured `currentRoom` and `userName` session
variables, the `RoomManager` maps, and the `DrawingStateManager` rooms. -/
structure ServerState where
  currentRoom : String
  userName : String
  roomConfigs : List (String × RoomConfig)
  userColors : List (String × String)
  colorIndex : Nat
  drawingRooms : List (String × RoomState)
  deriving DecidableEq

/-- Payload of a `join-room` message (`server.ts` line 83). -/
structure JoinData where
  roomId : Option String := none
  userName : Option String := none
  deriving DecidableEq

/-- The events emitted by the `join-room` handler: an `error` to the
sender only, `user-left` to the old room, the `room-state` snapshot to
the sender, and `user-joined` to the other members of the new room. -/
structure JoinEmits where
  error : Option String := none
  userLeftToOldRoom : Option (String × String) := none
  roomStateToSender : Option (List DrawingOperation × List UserInfo) := none
  userJoinedToOthers : Option (String × String × String) := none
  deriving DecidableEq

/-- The `join-room` handler (`server.ts` lines 83-133).  Reject branches
(missing data, missing/oversized room id, sanitizer mismatch) emit only
an `error` event and change nothing.  The success branch leaves the old
room, switches `currentRoom`, lazily creates the `RoomManager` entry,
updates `userName` when a non-empty name was supplied, assigns a color,
registers the user, and emits the snapshot and the presence events. -/
def joinRoomHandler (userId : String) (now : ℚ) (st : ServerState)
    (data : Option JoinData) : ServerState × JoinEmits :=
  match data with
  | none => (st, { error := some "Invalid join-room data" })
  | some d =>
    match d.roomId with
    | none => (st, { error := some "Invalid room ID" })
    | some roomId =>
      if roomId = "" ∨ 50 < roomId.length then
        (st, { error := some "Invalid room ID" })
      else if sanitizeRoomId roomId ≠ roomId then
        (st, { error := some "Room ID contains invalid characters" })
      else
        let oldRoom := st.currentRoom
        let roomConfigs :=
          if (lookupAssoc st.roomConfigs roomId).isSome then st.roomConfigs
          else rmCreateRoom st.roomConfigs roomId now
        let userName := match d.userName with
          | some n => if n = "" then st.userName else n
          | none => st.userName
        let (color, userColors, colorIndex) :=
          assignUserColor st.userColors st.colorIndex userId
        let drawingRooms := dsAddUser st.drawingRooms roomId userId userName
          color now
        let (snapshot, drawingRooms') := dsGetStateSnapshot drawingRooms roomId
        ({ currentRoom := roomId, userName := userName,
           roomConfigs := roomConfigs, userColors := userColors,
           colorIndex := colorIndex, drawingRooms := drawingRooms' },
         { userLeftToOldRoom := some (oldRoom, userId),
           roomStateToSender := some snapshot,
           userJoinedToOthers := some (userId, userName, color) })

/-- The client-side mirror state touched by
`CanvasManager.loadOperations` (`main.ts` lines 854-856): the rendered
operation list, the local undo stack, and the `remoteOperations` map. -/
structure ClientMirror where
  operations : List DrawingOperation
  undoStack : List DrawingOperation
  remoteOperations : List (String × DrawingOperation)
  deriving DecidableEq

/-- `CanvasManager.copyOperation` (`main.ts` lines 1608-1623) deep-copies
an operation to break aliasing with the argument; under pure value
semantics that is the identity. -/
def copyOperation (op : DrawingOperation) : DrawingOperation := op

/-- Loop body of `CanvasManager.loadOperations` (`main.ts` lines
1631-1637): skip operations with a falsy (empty) id; otherwise push a
copy into `operations` and record it in `remoteOperations`. -/
def loadStep (acc : ClientMirror) (op : DrawingOperation) : ClientMirror :=
  if op.id = "" then acc
  else
    { acc with
      operations := acc.operations ++ [copyOperation op],
      remoteOperations :=
        setAssoc acc.remoteOperations op.id (copyOperation op) }

/-- `CanvasManager.loadOperations` (`main.ts` lines 1626-1640): reset the
operation list, the undo stack and the `remoteOperations` map, then run
the loop over the snapshot's operations. -/
def loadOperations (m : ClientMirror) (ops : List DrawingOperation) :
    ClientMirror :=
  let _previous := m
  ops.foldl loadStep { operations := [], undoStack := [], remoteOperations := [] }

/-! Concrete sample operations used by witnesses. -/

/-- Sample operation `A`, authored by `u1`. -/
def opA : DrawingOperation :=
  { id := "A", userId := "u1", type := OpType.draw, timestamp := 0 }

/-- Sample operation `B`, authored by `u2`. -/
def opB : DrawingOperation :=
  { id := "B", userId := "u2", type := OpType.draw, timestamp := 1 }

/-- Sample operation `C`, authored by `u1`. -/
def opC : DrawingOperation :=
  { id := "C", userId := "u1", type := OpType.draw, timestamp := 2 }

/-- Sample empty client mirror used by witnesses. -/
def mirror0 : ClientMirror :=
  { operations := [], undoStack := [], remoteOperations := [] }

/-! Helper lemmas about `removeLast`, `addOperation` and `updateFirst`. -/

theorem removeLast_eq_none {p : α → Bool} :
    ∀ {l : List α}, (∀ a ∈ l, p a = false) → removeLast p l = none
  | [], _ => rfl
  | x :: xs, h => by
    have hx : p x = false := h x (List.mem_cons_self x xs)
    have hxs : removeLast p xs = none :=
      removeLast_eq_none (fun a ha => h a (List.mem_cons_of_mem _ ha))
    simp [removeLast, hxs, hx]

theorem removeLast_append_last {p : α → Bool} (l₁ l₂ : List α) (x : α)
    (hx : p x = true) (h₂ : ∀ a ∈ l₂, p a = false) :
    removeLast p (l₁ ++ x :: l₂) = some (x, l₁ ++ l₂) := by
  induction l₁ with
  | nil => simp [removeLast, removeLast_eq_none h₂, hx]
  | cons a l₁ ih => simp [removeLast, ih]

theorem undoOperation_eq_none (ops : List DrawingOperation) (u : String)
    (hu : u ≠ "") (h : ∀ op ∈ ops, op.userId ≠ u) :
    undoOperation ops (some u) = (none, ops) := by
  cases ops with
  | nil => rfl
  | cons a as =>
    have hnone : removeLast (fun op => op.userId == u) (a :: as) = none :=
      removeLast_eq_none (fun o ho => beq_eq_false_iff_ne.mpr (h o ho))
    simp [undoOperation, hu, hnone]

theorem addOperation_length_le (ops : List DrawingOperation)
    (op : DrawingOperation) (h : ops.length ≤ 500) :
    (addOperation ops op).length ≤ 500 := by
  unfold addOperation MAX_OPERATIONS
  by_cases hlen : 500 < (ops ++ [op]).length
  · rw [if_pos hlen]
    simp only [List.length_tail, List.length_append, List.length_singleton]
    omega
  · rw [if_neg hlen]
    simp only [List.length_append, List.length_singleton] at hlen ⊢
    omega

theorem foldl_addOperation_length_le (seq : List DrawingOperation) :
    ∀ init : List DrawingOperation, init.length ≤ 500 →
      (seq.foldl addOperation init).length ≤ 500 := by
  induction seq with
  | nil => intro init h; simpa using h
  | cons a as ih =>
    intro init h
    exact ih (addOperation init a) (addOperation_length_le init a h)

/-! Claim theorems. -/

/-- C1: `undoOperation(room, u)` removes exactly the most recent
operation authored by `u` (scanning from the tail), returns it, and
leaves every other operation — in particular every operation authored by
other users — in place and in their original relative order. -/
theorem undoOperation_removes_most_recent
    (l₁ l₂ : List DrawingOperation) (op : DrawingOperation) (u : String)
    (hu : u ≠ "") (hop : op.userId = u) (h₂ : ∀ o ∈ l₂, o.userId ≠ u) :
    undoOperation (l₁ ++ op :: l₂) (some u) = (some op, l₁ ++ l₂) := by
  have hx : (op.userId == u) = true := beq_iff_eq.mpr hop
  have h₂' : ∀ o ∈ l₂, (fun o => o.userId == u) o = false :=
    fun o ho => beq_eq_false_iff_ne.mpr (h₂ o ho)
  have hne : ¬(l₁ ++ op :: l₂ = []) := by simp
  simp only [undoOperation, if_neg hne, hu, if_false, ite_false]
  rw [removeLast_append_last l₁ l₂ op hx h₂']

/-- C1 witness: on the log `[A(u1), B(u2), C(u1)]`, `undoLast(u1)`
removes `C` and returns it; the resulting log is `[A(u1), B(u2)]`. -/
theorem undoOperation_removes_most_recent_witness :
    undoOperation [opA, opB, opC] (some "u1") = (some opC, [opA, opB]) :=
  undoOperation_removes_most_recent [opA, opB] [] opC "u1"
    (by decide) rfl (by simp)

/-- C9: with the `userId` argument omitted, `undoOperation` removes and
returns the most recent operation of the log regardless of author; on an
empty log it returns `null` and changes nothing. -/
theorem undoOperation_global_path :
    (∀ (ops : List DrawingOperation) (op : DrawingOperation),
      undoOperation (ops ++ [op]) none = (some op, ops)) ∧
    undoOperation ([] : List DrawingOperation) none = (none, []) := by
  refine ⟨fun ops op => ?_, rfl⟩
  have hne : ¬(ops ++ [op] = []) := by simp
  simp only [undoOperation, if_neg hne]
  rw [removeLast_append_last ops [] op rfl (by simp)]
  simp

/-- C7: an undo request by a user with no operation in the log (including
the empty log) removes nothing, broadcasts nothing, and leaves the log
unchanged. -/
theorem undoHandler_nothing_to_undo (userId : String)
    (ops : List DrawingOperation) (hu : userId ≠ "")
    (h : ∀ op ∈ ops, op.userId ≠ userId) :
    undoHandler userId ops = { ops := ops, broadcastRoom := none } := by
  simp [undoHandler, undoOperation_eq_none ops userId hu h]

/-- C7 witness: `u3` has no operation in `[A(u1), B(u2), C(u1)]`, so the
undo is a no-op with no broadcast. -/
theorem undoHandler_nothing_to_undo_witness :
    undoHandler "u3" [opA, opB, opC] =
      { ops := [opA, opB, opC], broadcastRoom := none } :=
  undoHandler_nothing_to_undo "u3" [opA, opB, opC] (by decide) (by decide)

/-- C2: starting from an empty room, the log never exceeds 500
operations, and appending to a log holding exactly 500 operations evicts
exactly the operation at index 0 while appending the new operation at the
tail. -/
theorem addOperation_bounded :
    (∀ seq : List DrawingOperation,
      (seq.foldl addOperation []).length ≤ 500) ∧
    (∀ (ops : List DrawingOperation) (op : DrawingOperation),
      ops.length = 500 →
        addOperation ops op = ops.tail ++ [op] ∧
        (addOperation ops op).length = 500) := by
  constructor
  · intro seq
    exact foldl_addOperation_length_le seq [] (by simp)
  · intro ops op h
    have hlen : MAX_OPERATIONS < (ops ++ [op]).length := by
      simp only [MAX_OPERATIONS, List.length_append, List.length_singleton]
      omega
    have heq : addOperation ops op = (ops ++ [op]).tail := by
      simp only [addOperation, if_pos hlen]
    cases ops with
    | nil => simp at h
    | cons a as =>
      refine ⟨by simpa using heq, ?_⟩
      rw [heq]
      simp only [List.cons_append, List.tail_cons, List.length_append,
        List.length_singleton]
      simp only [List.length_cons] at h
      omega

/-- C2 witness: appending to a concrete log of exactly 500 operations
drops the head and appends at the tail, keeping the length at 500. -/
theorem addOperation_bounded_witness :
    addOperation (List.replicate 500 opA) opB =
      (List.replicate 500 opA).tail ++ [opB] ∧
    (addOperation (List.replicate 500 opA) opB).length = 500 :=
  addOperation_bounded.2 (List.replicate 500 opA) opB
    (by simp only [List.length_replicate])

theorem foldl_loadStep_operations (ops : List DrawingOperation) :
    ∀ acc : ClientMirror, (List.foldl loadStep acc ops).operations =
      acc.operations ++ ops.filter (fun op => !(op.id == "")) := by
  induction ops with
  | nil => intro acc; simp
  | cons a as ih =>
    intro acc
    by_cases ha : a.id = ""
    · simp [loadStep, ha, List.filter_cons, ih]
    · simp [loadStep, ha, List.filter_cons, ih, copyOperation,
        List.append_assoc]

/-- C6: `clear-canvas` leaves the log containing exactly one operation —
a synthetic clear marker of type `clear` stamped with the sender's
`userId` and the server timestamp — regardless of the log's prior
contents, and broadcasts the event to the entire room including the
sender. -/
theorem clearCanvas_collapses_log (userId : String) (now : ℚ)
    (genId : String) (ops : List DrawingOperation) :
    (clearCanvasHandler userId now genId ops).ops =
      [{ id := genId, userId := userId, type := OpType.clear,
         timestamp := now }] ∧
    (clearCanvasHandler userId now genId ops).broadcastRoom =
      some { id := genId, userId := userId, type := OpType.clear,
             timestamp := now } :=
  ⟨rfl, rfl⟩

/-- C8: `loadOperations` is idempotent — applying the same snapshot twice
yields exactly the state of applying it once — and, provided the
snapshot's operation ids are distinct, no operation id appears more than
once in the mirror's operation list. -/
theorem loadOperations_idempotent (m : ClientMirror)
    (ops : List DrawingOperation) :
    loadOperations (loadOperations m ops) ops = loadOperations m ops ∧
    ((ops.map DrawingOperation.id).Nodup →
      ((loadOperations m ops).operations.map DrawingOperation.id).Nodup) := by
  refine ⟨rfl, fun h => ?_⟩
  have hchar : (loadOperations m ops).operations =
      ops.filter (fun op => !(op.id == "")) := by
    simpa using foldl_loadStep_operations ops
      { operations := [], undoStack := [], remoteOperations := [] }
  rw [hchar]
  exact List.Nodup.sublist
    ((List.filter_sublist ops).map DrawingOperation.id) h

/-- C8 witness: loading the two-operation snapshot `[A, B]` twice equals
loading it once, and the resulting mirror holds each id once. -/
theorem loadOperations_idempotent_witness :
    loadOperations (loadOperations mirror0 [opA, opB]) [opA, opB] =
      loadOperations mirror0 [opA, opB] ∧
    ((loadOperations mirror0 [opA, opB]).operations.map
      DrawingOperation.id).Nodup :=
  ⟨(loadOperations_idempotent mirror0 [opA, opB]).1,
   (loadOperations_idempotent mirror0 [opA, opB]).2 (by decide)⟩

theorem mem_updateFirst {p : α → Bool} {f : α → α} :
    ∀ {l : List α} {y : α}, y ∈ updateFirst p f l →
      y ∈ l ∨ ∃ x, x ∈ l ∧ p x = true ∧ y = f x := by
  intro l
  induction l with
  | nil => intro y hy; simp [updateFirst] at hy
  | cons a as ih =>
    intro y hy
    by_cases ha : p a = true
    · rw [updateFirst, if_pos ha] at hy
      rcases List.mem_cons.mp hy with hy | hy
      · exact Or.inr ⟨a, List.mem_cons_self a as, ha, hy⟩
      · exact Or.inl (List.mem_cons_of_mem _ hy)
    · rw [updateFirst, if_neg ha] at hy
      rcases List.mem_cons.mp hy with rfl | hy
      · exact Or.inl (List.mem_cons_self y as)
      · rcases ih hy with h | ⟨x, hx, hpx, hyx⟩
        · exact Or.inl (List.mem_cons_of_mem _ h)
        · exact Or.inr ⟨x, List.mem_cons_of_mem _ hx, hpx, hyx⟩

/-- Exhaustive description of the `draw-progress` handler: every branch
is either the silent no-op (log untouched, nothing relayed, no error) or
the single successful branch that appends the clamped point to the found
operation's path and relays the delta. -/
theorem drawProgressHandler_cases (userId : String)
    (ops : List DrawingOperation) (data : Option DrawProgressData) :
    drawProgressHandler userId ops data =
      { ops := ops, relayOthers := none, errorToSender := false } ∨
    ∃ opId pt operation path0,
      data = some { operationId := some opId, point := some pt } ∧
      ¬(opId = "") ∧
      ops.find? (fun op => op.id == opId) = some operation ∧
      operation.userId = userId ∧
      operation.path = some path0 ∧
      path0.length < 10000 ∧
      drawProgressHandler userId ops data =
        { ops := updateFirst (fun op => op.id == opId)
            (fun op => { op with path := some (path0 ++ [clampPoint pt]) })
            ops,
          relayOthers := some (opId, clampPoint pt),
          errorToSender := false } := by
  cases data with
  | none => exact Or.inl rfl
  | some d =>
    obtain ⟨oid?, pt?⟩ := d
    cases oid? with
    | none => exact Or.inl rfl
    | some opId =>
      cases pt? with
      | none => exact Or.inl rfl
      | some pt =>
        by_cases hid : opId = ""
        · left; simp [drawProgressHandler, hid]
        · cases hfind : ops.find? (fun op => op.id == opId) with
          | none => left; simp [drawProgressHandler, hid, hfind]
          | some operation =>
            by_cases howner : operation.userId = userId
            · cases hpath : operation.path with
              | none =>
                left; simp [drawProgressHandler, hid, hfind, howner, hpath]
              | some path0 =>
                by_cases hlen : path0.length < 10000
                · right
                  exact ⟨opId, pt, operation, path0, rfl, hid, hfind, howner,
                    hpath, hlen,
                    by simp [drawProgressHandler, hid, hfind, howner, hpath,
                      hlen]⟩
                · left
                  simp [drawProgressHandler, hid, hfind, howner, hpath, hlen]
            · left; simp [drawProgressHandler, hid, hfind, howner]

/-- C4: a `draw-progress` whose `operationId` resolves to an operation
authored by a different user than the sender (or to no operation at all)
leaves the log untouched, relays nothing, and emits no error event. -/
theorem drawProgress_unauthorized_dropped (userId : String)
    (ops : List DrawingOperation) (opId : String) (pt : Point)
    (h : ∀ operation, ops.find? (fun op => op.id == opId) = some operation →
      operation.userId ≠ userId) :
    drawProgressHandler userId ops
        (some { operationId := some opId, point := some pt }) =
      { ops := ops, relayOthers := none, errorToSender := false } := by
  rcases drawProgressHandler_cases userId ops
      (some { operationId := some opId, point := some pt }) with
    hc | ⟨opId', pt', operation, path0, hdata, _, hfind, howner, _, _, _⟩
  · exact hc
  · simp only [Option.some.injEq, DrawProgressData.mk.injEq] at hdata
    obtain ⟨h1, _⟩ := hdata
    obtain rfl : opId = opId' := h1
    exact absurd howner (h operation hfind)

/-- C4 witness: `draw-progress` on operation `A` (authored by `u1`) sent
by `u2` changes nothing and relays nothing. -/
theorem drawProgress_unauthorized_dropped_witness :
    drawProgressHandler "u2" [opA]
        (some { operationId := some "A", point := some { x := 1, y := 2 } }) =
      { ops := [opA], relayOthers := none, errorToSender := false } :=
  drawProgress_unauthorized_dropped "u2" [opA] "A" { x := 1, y := 2 }
    (by
      intro operation hop
      obtain rfl : opA = operation := Option.some.inj hop
      decide)

/-- C3 counterexample: an `erase` message at point `(-5, -3)` is stored
(and relayed) with its negative coordinate intact — the `erase` handler
never clamps, contradicting the claim that every stored point coordinate
of an erase message is clamped to be non-negative. -/
theorem erase_stores_negative_coordinate :
    ∃ op ∈ (eraseHandler "u1" 0 "E" []
        { point := { x := -5, y := -3 }, radius := 10 }).ops,
      ∃ q ∈ op.path.getD [], q.x < 0 ∧ q.y < 0 := by decide

/-- C3 (amended): only the `draw-start` and `draw-progress` handlers
clamp coordinates to be non-negative before storage and relay; the
`erase` handler stores and relays its point exactly as received.
Part 1: a valid `draw-start` stores and relays one operation whose every
path coordinate is non-negative.  Part 2: any point relayed by
`draw-progress` is non-negative.  Part 3: any point in the log after
`draw-progress` was either already in the log or is non-negative.
Part 4: `erase` stores and relays the unmodified input point. -/
theorem coordinates_clamped_draw_only :
    (∀ (userId : String) (now : ℚ) (genId : String)
        (ops : List DrawingOperation) (d : DrawStartData) (pt : Point),
      d.point = some pt →
        ∃ op, (drawStartHandler userId now genId ops (some d)).ops =
            addOperation ops op ∧
          (drawStartHandler userId now genId ops (some d)).relayOthers =
            some op ∧
          ∀ q ∈ op.path.getD [], 0 ≤ q.x ∧ 0 ≤ q.y) ∧
    (∀ (userId : String) (ops : List DrawingOperation)
        (data : Option DrawProgressData) (opId : String) (pt : Point),
      (drawProgressHandler userId ops data).relayOthers = some (opId, pt) →
        0 ≤ pt.x ∧ 0 ≤ pt.y) ∧
    (∀ (userId : String) (ops : List DrawingOperation)
        (data : Option DrawProgressData) (op' : DrawingOperation) (q : Point),
      op' ∈ (drawProgressHandler userId ops data).ops →
        q ∈ op'.path.getD [] →
          (∃ op ∈ ops, q ∈ op.path.getD []) ∨ (0 ≤ q.x ∧ 0 ≤ q.y)) ∧
    (∀ (userId : String) (now : ℚ) (genId : String)
        (ops : List DrawingOperation) (d : EraseData),
      ∃ op, (eraseHandler userId now genId ops d).ops = addOperation ops op ∧
        (eraseHandler userId now genId ops d).relayOthers = some op ∧
        op.path = some [d.point]) := by
  refine ⟨?_, ?_, ?_, ?_⟩
  · intro userId now genId ops d pt hpt
    obtain ⟨pt?, c?, lw?, oid?⟩ := d
    simp only at hpt
    subst hpt
    refine ⟨_, rfl, rfl, ?_⟩
    intro q hq
    simp only [clampPoint, Option.getD_some, List.mem_singleton] at hq
    subst hq
    exact ⟨le_max_left 0 pt.x, le_max_left 0 pt.y⟩
  · intro userId ops data opId pt hrelay
    rcases drawProgressHandler_cases userId ops data with
      hc | ⟨opId', pt', operation, path0, _, _, _, _, _, _, heq⟩
    · rw [hc] at hrelay; simp at hrelay
    · rw [heq] at hrelay
      simp only [Option.some.injEq, Prod.mk.injEq] at hrelay
      obtain ⟨_, rfl⟩ := hrelay
      exact ⟨le_max_left 0 pt'.x, le_max_left 0 pt'.y⟩
  · intro userId ops data op' q hop' hq
    rcases drawProgressHandler_cases userId ops data with
      hc | ⟨opId', pt', operation, path0, _, _, hfind, _, hpath, _, heq⟩
    · rw [hc] at hop'
      exact Or.inl ⟨op', hop', hq⟩
    · rw [heq] at hop'
      rcases mem_updateFirst hop' with hmem | ⟨x, _, _, rfl⟩
      · exact Or.inl ⟨op', hmem, hq⟩
      · simp only [Option.getD_some] at hq
        rcases List.mem_append.mp hq with hq0 | hq1
        · refine Or.inl ⟨operation, List.mem_of_find?_eq_some hfind, ?_⟩
          rw [hpath]
          exact hq0
        · obtain rfl := List.mem_singleton.mp hq1
          exact Or.inr ⟨le_max_left 0 pt'.x, le_max_left 0 pt'.y⟩
  · intro userId now genId ops d
    exact ⟨_, rfl, rfl, rfl⟩

/-- C3 (amended) witness: a `draw-start` at the negative point
`(-7, 4)` is stored and relayed with every coordinate non-negative. -/
theorem coordinates_clamped_draw_only_witness :
    ∃ op, (drawStartHandler "u1" 0 "G" []
        (some { point := some { x := -7, y := 4 } })).ops =
        addOperation [] op ∧
      (drawStartHandler "u1" 0 "G" []
        (some { point := some { x := -7, y := 4 } })).relayOthers =
        some op ∧
      ∀ q ∈ op.path.getD [], 0 ≤ q.x ∧ 0 ≤ q.y :=
  coordinates_clamped_draw_only.1 "u1" 0 "G" []
    { point := some { x := -7, y := 4 } } { x := -7, y := 4 } rfl

/-- C10: a `draw-start` whose `lineWidth` is missing or falsy (`0`) is
stored and relayed with the default line width `5` — not the clamp lower
bound `1` — and any other numeric `lineWidth` `w` is stored and relayed
as `max 1 (min 100 w)`. -/
theorem drawStart_lineWidth_semantics (userId : String) (now : ℚ)
    (genId : String) (ops : List DrawingOperation) (d : DrawStartData)
    (pt : Point) (hpt : d.point = some pt) :
    (d.lineWidth = none ∨ d.lineWidth = some 0 →
      ∃ op, (drawStartHandler userId now genId ops (some d)).ops =
          addOperation ops op ∧
        (drawStartHandler userId now genId ops (some d)).relayOthers =
          some op ∧
        op.lineWidth = some 5) ∧
    (∀ w : ℚ, d.lineWidth = some w → ¬(w = 0) →
      ∃ op, (drawStartHandler userId now genId ops (some d)).ops =
          addOperation ops op ∧
        (drawStartHandler userId now genId ops (some d)).relayOthers =
          some op ∧
        op.lineWidth = some (max 1 (min 100 w))) := by
  obtain ⟨pt?, c?, lw?, oid?⟩ := d
  simp only at hpt
  subst hpt
  constructor
  · intro hlw
    rcases hlw with h | h <;> simp only at h <;> subst h <;>
      refine ⟨_, rfl, rfl, ?_⟩
    · show some (max 1 (min 100 (5 : ℚ))) = some 5
      norm_num
    · show some (max 1 (min 100 (if (0 : ℚ) = 0 then 5 else 0))) = some 5
      norm_num
  · intro w hw hw0
    simp only at hw
    subst hw
    refine ⟨_, rfl, rfl, ?_⟩
    show some (max 1 (min 100 (if w = 0 then 5 else w))) =
      some (max 1 (min 100 w))
    rw [if_neg hw0]

/-- C10 witness: a `draw-start` with no `lineWidth` field is stored and
relayed with line width `5`. -/
theorem drawStart_lineWidth_semantics_witness :
    ∃ op, (drawStartHandler "u1" 0 "G" []
        (some { point := some { x := 1, y := 2 } })).ops =
        addOperation [] op ∧
      (drawStartHandler "u1" 0 "G" []
        (some { point := some { x := 1, y := 2 } })).relayOthers =
        some op ∧
      op.lineWidth = some 5 :=
  (drawStart_lineWidth_semantics "u1" 0 "G" []
    { point := some { x := 1, y := 2 } } { x := 1, y := 2 } rfl).1
    (Or.inl rfl)

theorem sanitizeRoomId_ne {s : String} {c : Char} (hc : c ∈ s.data)
    (hbad : isRoomChar c = false) : sanitizeRoomId s ≠ s := by
  intro h
  have hdata : s.data.filter isRoomChar = s.data := congrArg String.data h
  have htrue := List.filter_eq_self.mp hdata c hc
  rw [hbad] at htrue
  exact Bool.false_ne_true htrue

/-- Sample per-connection server state used by witnesses. -/
def stSample : ServerState :=
  { currentRoom := "default", userName := "User abc123", roomConfigs := [],
    userColors := [], colorIndex := 0, drawingRooms := [] }

/-- C5: a `join-room` whose `roomId` is absent, longer than 50
characters, or contains a character outside `[A-Za-z0-9_-]` emits an
error event to the sender only, creates no room, performs no room
switch, and leaves all server state unchanged. -/
theorem joinRoom_rejects_invalid (userId : String) (now : ℚ)
    (st : ServerState) (data : Option JoinData)
    (h : data = none ∨ ∃ d, data = some d ∧
      (d.roomId = none ∨ ∃ rid, d.roomId = some rid ∧
        (50 < rid.length ∨ ∃ c ∈ rid.data, isRoomChar c = false))) :
    ∃ msg, joinRoomHandler userId now st data =
      (st, { error := some msg, userLeftToOldRoom := none,
             roomStateToSender := none, userJoinedToOthers := none }) := by
  rcases h with rfl | ⟨d, rfl, hd⟩
  · exact ⟨"Invalid join-room data", rfl⟩
  · obtain ⟨rid?, name?⟩ := d
    rcases hd with hnone | ⟨rid, hrid, hbad⟩
    · simp only at hnone
      subst hnone
      exact ⟨"Invalid room ID", rfl⟩
    · simp only at hrid
      subst hrid
      by_cases h1 : rid = "" ∨ 50 < rid.length
      · refine ⟨"Invalid room ID", ?_⟩
        simp only [joinRoomHandler]
        rw [if_pos h1]
      · rcases hbad with hlen | ⟨c, hc, hcbad⟩
        · exact absurd (Or.inr hlen) h1
        · have hs : sanitizeRoomId rid ≠ rid := sanitizeRoomId_ne hc hcbad
          refine ⟨"Room ID contains invalid characters", ?_⟩
          simp only [joinRoomHandler]
          rw [if_neg h1, if_pos hs]

/-- C5 witness: `join-room` with id `"My Room!"` (space and `!` are
outside the charset) is rejected with an error and no state change. -/
theorem joinRoom_rejects_invalid_witness :
    ∃ msg, joinRoomHandler "u1" 0 stSample
        (some { roomId := some "My Room!" }) =
      (stSample, { error := some msg, userLeftToOldRoom := none,
                   roomStateToSender := none, userJoinedToOthers := none }) :=
  joinRoom_rejects_invalid "u1" 0 stSample
    (some { roomId := some "My Room!" })
    (Or.inr ⟨{ roomId := some "My Room!" }, rfl,
      Or.inr ⟨"My Room!", rfl, Or.inr ⟨' ', by decide, by decide⟩⟩⟩)

end CollabCanvas
